import Mathlib

/-!
Verification of the safer-streets-apps spatial-temporal aggregation and
hotspot-ranking engine against its specification.

The embedding models:
* the `crime_counts_hex` / `crime_counts_oa` count tables produced by the
  `AGGREGATE_TO_HEX` / `AGGREGATE_TO_OA21` SQL in
  `src/safer_streets_apps/fastapi/sql.py` (sparse rows keyed by spatial unit,
  month and crime type; the spatial unit is `Option`al because the
  `RIGHT JOIN` keeps incidents that fall outside every unit, grouped under a
  NULL spatial unit),
* the hotspot queries `NATIONAL_HOTSPOTS_HEX`, `FORCE_HOTSPOTS_HEX` and
  `FORCE_HOTSPOTS_OA` (filter, sort, limit, group-by-sum),
* the cache handling in `src/safer_streets_apps/fastapi/startup.py`,
* the parameter validation of the `/hotspots` and `/census_counts` endpoints
  in `src/safer_streets_apps/fastapi/app.py`,
* the windowed aggregation used by the Streamlit pages `Hotspots.py` and
  `Capture.py`.

SQL `ORDER BY` is embedded as `List.insertionSort` with the lexicographic
order given by the `ORDER BY` clause (DuckDB sorts `ASC` with NULLS LAST).
-/

namespace SaferStreets

/-- A row of a crime-count table (`crime_counts_hex`): spatial unit
(NULL for incidents outside every hex), month string `YYYY-MM`, crime type,
and the aggregated count.  Counts in these tables come from SQL `COUNT` over
a non-empty group, hence the tables only ever hold positive counts. -/
structure CountRow where
  unit : Option Nat
  month : String
  crime_type : String
  count : Nat
deriving DecidableEq, Repr

/-- `WHERE crime_type = $1 AND month = ANY($2)` on a count table. -/
def hotspotFilter (table : List CountRow) (cat : String) (months : List String) :
    List CountRow :=
  table.filter (fun r => decide (r.crime_type = cat ∧ r.month ∈ months))

/-- DuckDB `spatial_unit ASC` with its default NULLS LAST placement. -/
def nullsLastLE : Option Nat → Option Nat → Bool
  | none, none => true
  | none, some _ => false
  | some _, none => true
  | some x, some y => decide (x ≤ y)

/-- `ORDER BY count DESC, spatial_unit ASC` on count-table rows
(the inner CTE of `NATIONAL_HOTSPOTS_HEX`). -/
def CteRowOrd (r₁ r₂ : CountRow) : Prop :=
  r₂.count < r₁.count ∨ (r₁.count = r₂.count ∧ nullsLastLE r₁.unit r₂.unit = true)

instance : DecidableRel CteRowOrd := fun r₁ r₂ => by
  unfold CteRowOrd; infer_instance

/-- Sum of the `count` column over the rows of a given spatial unit
(SQL `SUM(count) ... GROUP BY spatial_unit`); units without rows sum to 0. -/
def sumCount (rows : List CountRow) (u : Option Nat) : Nat :=
  ((rows.filter (fun r => decide (r.unit = u))).map (·.count)).sum

/-- `SELECT spatial_unit, SUM(count) ... GROUP BY spatial_unit`:
one entry per distinct spatial unit occurring in `rows`. -/
def groupByUnitSum (rows : List CountRow) : List (Option Nat × Nat) :=
  ((rows.map (·.unit)).dedup).map (fun u => (u, sumCount rows u))

/-- `ORDER BY count DESC, spatial_unit ASC` on grouped (unit, total) entries. -/
def EntryOrd (e₁ e₂ : Option Nat × Nat) : Prop :=
  e₂.2 < e₁.2 ∨ (e₁.2 = e₂.2 ∧ nullsLastLE e₁.1 e₂.1 = true)

instance : DecidableRel EntryOrd := fun e₁ e₂ => by
  unfold EntryOrd; infer_instance

/-- `NATIONAL_HOTSPOTS_HEX` (sql.py lines 91-105): the CTE filters
`crime_counts_hex` by crime type and month set, orders by
`count DESC, spatial_unit ASC` and applies `LIMIT $3` *to the per-month
rows*; only then does the outer query group by spatial unit, sum the counts
and re-sort by summed count. -/
def nationalHotspotsHex (table : List CountRow) (cat : String) (months : List String)
    (n : Nat) : List (Option Nat × Nat) :=
  let cte := (List.insertionSort CteRowOrd (hotspotFilter table cat months)).take n
  List.insertionSort EntryOrd (groupByUnitSum cte)

/-- The `/hotspots` endpoint (app.py lines 197-204) turns the query rows into
a GeoDataFrame and calls `.dropna()`, which removes the NULL-unit row (its
joined hex geometry is NULL). -/
def hotspotsNationalResponse (table : List CountRow) (cat : String)
    (months : List String) (n : Nat) : List (Nat × Nat) :=
  (nationalHotspotsHex table cat months n).filterMap
    (fun e => e.1.map (fun u => (u, e.2)))

/-- `ORDER BY count DESC, spatial_unit ASC` on (unit, total) entries whose
unit is known to be non-NULL. -/
def NatEntryOrd (e₁ e₂ : Nat × Nat) : Prop :=
  e₂.2 < e₁.2 ∨ (e₁.2 = e₂.2 ∧ e₁.1 ≤ e₂.1)

instance : DecidableRel NatEntryOrd := fun e₁ e₂ => by
  unfold NatEntryOrd; infer_instance

/-- `FORCE_HOTSPOTS_HEX` (sql.py lines 107-121): the `RIGHT JOIN` onto the
hexes of the force combined with the `WHERE` on the count table behaves as an
inner join, so the query keeps the filtered rows whose unit lies in the
force, groups by unit, sums, orders by `count DESC, spatial_unit ASC` and
only then applies `LIMIT $4`. -/
def forceHotspotsHex (table : List CountRow) (inForce : Nat → Bool) (cat : String)
    (months : List String) (n : Nat) : List (Nat × Nat) :=
  let rows := (hotspotFilter table cat months).filter
    (fun r => match r.unit with | some u => inForce u | none => false)
  let units := (rows.filterMap (·.unit)).dedup
  (List.insertionSort NatEntryOrd
    (units.map (fun u => (u, sumCount rows (some u))))).take n

/-- The ranking rule exactly as the spec's §4.5 states it (for comparison
with the queries above): sum the counts of every unit over the window
months, sort descending by summed count with ascending-unit tie-break, and
only then truncate to `n` entries. -/
def specRankHex (table : List CountRow) (cat : String) (months : List String)
    (n : Nat) : List (Nat × Nat) :=
  let rows := hotspotFilter table cat months
  let units := (rows.filterMap (·.unit)).dedup
  (List.insertionSort NatEntryOrd
    (units.map (fun u => (u, sumCount rows (some u))))).take n

/-- A row of `crime_counts_oa` (output-area counts): as `CountRow` but with
string OA codes as unit identifiers. -/
structure OARow where
  unit : Option String
  month : String
  crime_type : String
  count : Nat
deriving DecidableEq, Repr

/-- A row of the `FORCE_HOTSPOTS_OA` result: unit code, summed count and the
unit's area in km² (`ST_Area(h.geometry) / 1000000`). -/
structure OAEntry where
  unit : String
  count : Nat
  area : ℚ
deriving DecidableEq, Repr

/-- The density expression `SUM(count) / area` of `FORCE_HOTSPOTS_OA`. -/
def oaDensity (e : OAEntry) : ℚ := (e.count : ℚ) / e.area

/-- `ORDER BY count DESC, SUM(count) / area DESC, c.spatial_unit ASC` of
`FORCE_HOTSPOTS_OA` (sql.py lines 124-142). -/
def OAEntryOrd (e₁ e₂ : OAEntry) : Prop :=
  e₂.count < e₁.count ∨
    (e₁.count = e₂.count ∧
      (oaDensity e₂ < oaDensity e₁ ∨ (oaDensity e₁ = oaDensity e₂ ∧ e₁.unit ≤ e₂.unit)))

instance : DecidableRel OAEntryOrd := fun e₁ e₂ => by
  unfold OAEntryOrd; infer_instance

/-- The filtered OA rows of `FORCE_HOTSPOTS_OA`: the `RIGHT JOIN` onto the
force's OAs plus the `WHERE` on the count table keeps the rows of the
requested crime type and months whose (non-NULL) unit lies in the force. -/
def oaHotspotFilter (table : List OARow) (inForce : String → Bool) (cat : String)
    (months : List String) : List OARow :=
  table.filter (fun r =>
    decide (r.crime_type = cat ∧ r.month ∈ months) &&
      (match r.unit with | some u => inForce u | none => false))

/-- `SUM(count)` over the rows of one OA unit. -/
def oaSumCount (rows : List OARow) (u : String) : Nat :=
  ((rows.filter (fun r => decide (r.unit = some u))).map (·.count)).sum

/-- `FORCE_HOTSPOTS_OA` (sql.py lines 124-142): filter, group by unit with
summed count and area, order by `count DESC, SUM(count)/area DESC,
spatial_unit ASC`, then `LIMIT $4`. -/
def forceHotspotsOA (table : List OARow) (inForce : String → Bool)
    (area : String → ℚ) (cat : String) (months : List String) (n : Nat) :
    List OAEntry :=
  let rows := oaHotspotFilter table inForce cat months
  let units := (rows.filterMap (·.unit)).dedup
  (List.insertionSort OAEntryOrd
    (units.map (fun u => ⟨u, oaSumCount rows u, area u⟩))).take n

/-! ### Totality and transitivity of the ORDER BY relations -/

theorem nullsLastLE_total (a b : Option Nat) :
    nullsLastLE a b = true ∨ nullsLastLE b a = true := by
  cases a <;> cases b <;> simp [nullsLastLE] <;> omega

theorem nullsLastLE_trans {a b c : Option Nat} (h₁ : nullsLastLE a b = true)
    (h₂ : nullsLastLE b c = true) : nullsLastLE a c = true := by
  cases a <;> cases b <;> cases c <;> simp_all [nullsLastLE] <;> omega

instance : IsTotal CountRow CteRowOrd :=
  ⟨fun a b => by
    unfold CteRowOrd
    rcases Nat.lt_trichotomy a.count b.count with h | h | h
    · exact Or.inr (Or.inl h)
    · rcases nullsLastLE_total a.unit b.unit with hu | hu
      · exact Or.inl (Or.inr ⟨h, hu⟩)
      · exact Or.inr (Or.inr ⟨h.symm, hu⟩)
    · exact Or.inl (Or.inl h)⟩

instance : IsTrans CountRow CteRowOrd :=
  ⟨fun a b c hab hbc => by
    unfold CteRowOrd at *
    rcases hab with h₁ | ⟨h₁, hu₁⟩ <;> rcases hbc with h₂ | ⟨h₂, hu₂⟩
    · exact Or.inl (h₂.trans h₁)
    · exact Or.inl (h₂ ▸ h₁)
    · exact Or.inl (h₁ ▸ h₂)
    · exact Or.inr ⟨h₁.trans h₂, nullsLastLE_trans hu₁ hu₂⟩⟩

instance : IsTotal (Option Nat × Nat) EntryOrd :=
  ⟨fun a b => by
    unfold EntryOrd
    rcases Nat.lt_trichotomy a.2 b.2 with h | h | h
    · exact Or.inr (Or.inl h)
    · rcases nullsLastLE_total a.1 b.1 with hu | hu
      · exact Or.inl (Or.inr ⟨h, hu⟩)
      · exact Or.inr (Or.inr ⟨h.symm, hu⟩)
    · exact Or.inl (Or.inl h)⟩

instance : IsTrans (Option Nat × Nat) EntryOrd :=
  ⟨fun a b c hab hbc => by
    unfold EntryOrd at *
    rcases hab with h₁ | ⟨h₁, hu₁⟩ <;> rcases hbc with h₂ | ⟨h₂, hu₂⟩
    · exact Or.inl (h₂.trans h₁)
    · exact Or.inl (h₂ ▸ h₁)
    · exact Or.inl (h₁ ▸ h₂)
    · exact Or.inr ⟨h₁.trans h₂, nullsLastLE_trans hu₁ hu₂⟩⟩

instance : IsTotal (Nat × Nat) NatEntryOrd :=
  ⟨fun a b => by unfold NatEntryOrd; omega⟩

instance : IsTrans (Nat × Nat) NatEntryOrd :=
  ⟨fun a b c hab hbc => by unfold NatEntryOrd at *; omega⟩

instance : IsTotal OAEntry OAEntryOrd :=
  ⟨fun a b => by
    unfold OAEntryOrd
    rcases Nat.lt_trichotomy a.count b.count with h | h | h
    · exact Or.inr (Or.inl h)
    · rcases lt_trichotomy (oaDensity a) (oaDensity b) with hd | hd | hd
      · exact Or.inr (Or.inr ⟨h.symm, Or.inl hd⟩)
      · rcases le_total a.unit b.unit with hu | hu
        · exact Or.inl (Or.inr ⟨h, Or.inr ⟨hd, hu⟩⟩)
        · exact Or.inr (Or.inr ⟨h.symm, Or.inr ⟨hd.symm, hu⟩⟩)
      · exact Or.inl (Or.inr ⟨h, Or.inl hd⟩)
    · exact Or.inl (Or.inl h)⟩

instance : IsTrans OAEntry OAEntryOrd :=
  ⟨fun a b c hab hbc => by
    unfold OAEntryOrd at *
    rcases hab with h₁ | ⟨h₁, hd₁⟩ <;> rcases hbc with h₂ | ⟨h₂, hd₂⟩
    · exact Or.inl (h₂.trans h₁)
    · exact Or.inl (h₂ ▸ h₁)
    · exact Or.inl (h₁ ▸ h₂)
    · refine Or.inr ⟨h₁.trans h₂, ?_⟩
      rcases hd₁ with hd₁ | ⟨hd₁, hu₁⟩ <;> rcases hd₂ with hd₂ | ⟨hd₂, hu₂⟩
      · exact Or.inl (hd₂.trans hd₁)
      · exact Or.inl (hd₂ ▸ hd₁)
      · exact Or.inl (hd₁ ▸ hd₂)
      · exact Or.inr ⟨hd₁.trans hd₂, hu₁.trans hu₂⟩⟩

/-! ### Positions in an ordered result -/

/-- `a` appears strictly before `b` in the list `l`. -/
def precedes (l : List α) (a b : α) : Prop :=
  ∃ i j : Fin l.length, (i : ℕ) < (j : ℕ) ∧ l.get i = a ∧ l.get j = b

theorem sorted_precedes {R : α → α → Prop} {l : List α} (hs : l.Pairwise R)
    {a b : α} (ha : a ∈ l) (hb : b ∈ l) (hab : a ≠ b) (hnot : ¬R b a) :
    precedes l a b := by
  obtain ⟨i, hi⟩ := List.mem_iff_get.mp ha
  obtain ⟨j, hj⟩ := List.mem_iff_get.mp hb
  rcases Nat.lt_trichotomy (i : ℕ) (j : ℕ) with h | h | h
  · exact ⟨i, j, h, hi, hj⟩
  · exact absurd (hi ▸ hj ▸ congrArg l.get (Fin.ext h) : a = b) hab
  · exact absurd (hi ▸ hj ▸ List.pairwise_iff_get.mp hs j i h) hnot

/-! ### Windowed aggregation in the Streamlit pages -/

/-- Hotspots.py line 157: `counts[months].sum(axis=1)` — the ranking value of
one spatial unit over a window is the plain sum of its monthly counts
(`counts` is the unit × month matrix built with `fill_value=0`). -/
def hotspotsWindowValue (counts : String → ℚ) (months : List String) : ℚ :=
  (months.map counts).sum

/-- Capture.py line 261 (`render_dynamic`) and line 275:
`counts[[str(m) for m in month_window]].mean(axis=1)` — the per-unit value
handed to `render` (which ranks units by density and selects the captured
area) is the *mean* of the monthly counts over the window. -/
def captureWindowValue (counts : String → ℚ) (months : List String) : ℚ :=
  (months.map counts).sum / months.length

/-! ### The startup cache (startup.py lines 70-87) -/

/-- `init_db`'s cached count-table build: the artifact path
`duckdb_cache/crime_counts_{kind}_{latest_month}.parquet` is determined by
and determines the pair `(kind, latest month)`, modelled as the lookup key.
If the artifact exists it is loaded verbatim and the aggregation join is
skipped; otherwise the join runs and its result is persisted under the key.
The returned `Bool` records whether the join was performed. -/
def buildCubeCached {α : Type} (store : List ((String × String) × α))
    (kind month : String) (compute : α) :
    α × List ((String × String) × α) × Bool :=
  match store.lookup (kind, month) with
  | some c => (c, store, false)
  | none => (compute, ((kind, month), compute) :: store, true)

/-- The artifact-read step of `init_db` for one count table: `artifact` is
`none` when the cache file does not exist, `some none` when it exists but
fails to deserialize, and `some (some c)` when it reads back as `c`.  The
code only checks `cache_file.exists()`; the `read_parquet` call is not
wrapped in any handler, so a deserialization failure propagates out of
`init_db` as an error. -/
def loadOrBuildCounts {α : Type} (artifact : Option (Option α)) (compute : α) :
    Except String α :=
  match artifact with
  | none => Except.ok compute
  | some none => Except.error "CacheCorrupt"
  | some (some c) => Except.ok c

/-! ### census_counts (app.py lines 159-171) -/

/-- The census geography levels admitted by the `geography` parameter. -/
inductive CensusGeography
  | OA21
  | MSOA21
  | LSOA21
deriving DecidableEq, Repr

/-- The `CENSUS_COUNTS` query (sql.py lines 78-89): rows of `crime_counts_oa`
of the requested crime type whose unit lies in the force (the `RIGHT JOIN`
onto the force's geographies plus the `WHERE` on the count table behaves as
an inner join). -/
def censusCountsQuery (table : List OARow) (inForce : String → Bool)
    (cat : String) : List OARow :=
  table.filter (fun r =>
    decide (r.crime_type = cat) &&
      (match r.unit with | some u => inForce u | none => false))

/-- The `/census_counts` endpoint: `if geography != "OA21": raise
ValueError("only implemented for OA21. TODO: aggregate to L/MSOA21")`,
otherwise it runs `CENSUS_COUNTS`. -/
def census_counts (g : CensusGeography) (table : List OARow)
    (inForce : String → Bool) (cat : String) : Except String (List OARow) :=
  if g ≠ CensusGeography.OA21 then
    Except.error "only implemented for OA21. TODO: aggregate to L/MSOA21"
  else
    Except.ok (censusCountsQuery table inForce cat)

/-! ### Claims -/

/-- **C1**: the claim says every hotspot query sums the cube counts over the
window months per unit, sorts by the summed count (unit-id tie-break) and
only then truncates to `n`.  `NATIONAL_HOTSPOTS_HEX` instead applies
`LIMIT $3` inside its CTE to the *per-month* rows before the group-by-sum:
on a table where unit 0 has count 2 in each of two window months (sum 4) and
unit 1 has count 3 in one month (sum 3), the national query with `n = 1`
returns unit 1 with count 3, while ranking by multi-month summed count (as
the spec states, and as `FORCE_HOTSPOTS_HEX` does) returns unit 0 with
count 4. -/
theorem national_hotspots_limits_before_summing :
    hotspotsNationalResponse
        [⟨some 0, "2024-01", "x", 2⟩, ⟨some 0, "2024-02", "x", 2⟩,
          ⟨some 1, "2024-01", "x", 3⟩]
        "x" ["2024-01", "2024-02"] 1 = [(1, 3)] ∧
      specRankHex
        [⟨some 0, "2024-01", "x", 2⟩, ⟨some 0, "2024-02", "x", 2⟩,
          ⟨some 1, "2024-01", "x", 3⟩]
        "x" ["2024-01", "2024-02"] 1 = [(0, 4)] := by
  constructor <;> decide

/-- **C8**: the claim says a hotspot result with fewer than `n` units of
non-zero summed count contains exactly those units.  Because
`NATIONAL_HOTSPOTS_HEX` truncates per-month rows before grouping, a query
with `n = 4` over a table whose only non-zero units are unit 0 (four monthly
rows of count 5) and unit 1 (one row of count 3) returns unit 0 alone: the
four CTE slots are all consumed by unit 0's monthly rows.  The spec ranking
returns both non-zero units. -/
theorem national_hotspots_drops_nonzero_unit :
    hotspotsNationalResponse
        [⟨some 0, "2024-01", "x", 5⟩, ⟨some 0, "2024-02", "x", 5⟩,
          ⟨some 0, "2024-03", "x", 5⟩, ⟨some 0, "2024-04", "x", 5⟩,
          ⟨some 1, "2024-01", "x", 3⟩]
        "x" ["2024-01", "2024-02", "2024-03", "2024-04"] 4 = [(0, 20)] ∧
      specRankHex
        [⟨some 0, "2024-01", "x", 5⟩, ⟨some 0, "2024-02", "x", 5⟩,
          ⟨some 0, "2024-03", "x", 5⟩, ⟨some 0, "2024-04", "x", 5⟩,
          ⟨some 1, "2024-01", "x", 3⟩]
        "x" ["2024-01", "2024-02", "2024-03", "2024-04"] 4 = [(0, 20), (1, 3)] := by
  constructor <;> decide

/-- **C2**: under the density tie-break of `FORCE_HOTSPOTS_OA`, of two
result entries with equal summed counts the one with the higher
`count / area` ratio appears first, and entries equal on both summed count
and density are ordered by ascending unit id. -/
theorem oa_density_tiebreak (table : List OARow) (inForce : String → Bool)
    (area : String → ℚ) (cat : String) (months : List String) (n : Nat)
    (a b : OAEntry)
    (ha : a ∈ forceHotspotsOA table inForce area cat months n)
    (hb : b ∈ forceHotspotsOA table inForce area cat months n)
    (hcount : a.count = b.count)
    (hd : oaDensity b < oaDensity a ∨ (oaDensity a = oaDensity b ∧ a.unit < b.unit)) :
    precedes (forceHotspotsOA table inForce area cat months n) a b := by
  have hsorted : (forceHotspotsOA table inForce area cat months n).Pairwise OAEntryOrd :=
    List.Pairwise.sublist (List.take_sublist _ _)
      (List.sorted_insertionSort OAEntryOrd _)
  have hne : a ≠ b := by
    rintro rfl
    rcases hd with hd | ⟨-, hu⟩
    · exact lt_irrefl _ hd
    · exact lt_irrefl _ hu
  refine sorted_precedes hsorted ha hb hne ?_
  rintro (hlt | ⟨-, hdlt | ⟨hdeq, hule⟩⟩)
  · exact absurd hcount (Nat.ne_of_lt hlt)
  · rcases hd with hd | ⟨hdeq, -⟩
    · exact lt_asymm hd hdlt
    · exact absurd hdeq (ne_of_lt hdlt)
  · rcases hd with hd | ⟨-, hu⟩
    · exact absurd hdeq.symm (ne_of_gt hd)
    · exact absurd hule (not_le_of_lt hu)

/-- Witness for C2: two OAs `"A"` (area 2) and `"B"` (area 1) with equal
summed count 4; `"B"` has the higher density and precedes `"A"`. -/
theorem oa_density_tiebreak_witness :
    precedes
      (forceHotspotsOA [⟨some "A", "2024-01", "x", 4⟩, ⟨some "B", "2024-01", "x", 4⟩]
        (fun _ => true) (fun u => if u = "A" then 2 else 1) "x" ["2024-01"] 2)
      ⟨"B", 4, 1⟩ ⟨"A", 4, 2⟩ := by
  have hres :
      forceHotspotsOA [⟨some "A", "2024-01", "x", 4⟩, ⟨some "B", "2024-01", "x", 4⟩]
          (fun _ => true) (fun u => if u = "A" then 2 else 1) "x" ["2024-01"] 2 =
        [⟨"B", 4, 1⟩, ⟨"A", 4, 2⟩] := by
    simp only [forceHotspotsOA, oaHotspotFilter, oaSumCount, List.insertionSort,
      List.orderedInsert, OAEntryOrd, oaDensity, List.dedup, List.pwFilter,
      List.filterMap, List.filter, List.map, List.sum_cons, List.sum_nil]
    rw [if_neg (by decide : ¬(("B" : String) = "A"))]
    norm_num [List.take]
  refine oa_density_tiebreak _ _ _ _ _ _ _ _ ?_ ?_ rfl (Or.inl ?_)
  · rw [hres]; simp
  · rw [hres]; simp
  · norm_num [oaDensity]

/-- **C3** counterexample: the claim says the per-unit aggregated value used
for ranking is the plain sum over the window months in every query variant;
the Capture page's `render_dynamic` instead uses `.mean(axis=1)`, so for
monthly counts 1 and 2 its value 3/2 differs from the sum 3. -/
theorem capture_window_uses_mean_not_sum :
    captureWindowValue (fun m => if m = "2024-01" then 1 else 2)
        ["2024-01", "2024-02"] ≠
      hotspotsWindowValue (fun m => if m = "2024-01" then 1 else 2)
        ["2024-01", "2024-02"] := by
  have h2 : (if ("2024-02" : String) = "2024-01" then (1 : ℚ) else 2) = 2 :=
    if_neg (by decide)
  norm_num [captureWindowValue, hotspotsWindowValue, List.map, h2]

/-- **C3** (amended): the Hotspots page ranks by the plain sum of the
monthly counts over the window, while the Capture page aggregates by their
mean (window sum divided by window length); the mean induces the same
per-window ordering of units as the sum, and the two coincide for one-month
windows. -/
theorem window_aggregation_sum_vs_mean (c₁ c₂ : String → ℚ)
    (months : List String) (h : months ≠ []) :
    hotspotsWindowValue c₁ months = (months.map c₁).sum ∧
    captureWindowValue c₁ months * months.length = hotspotsWindowValue c₁ months ∧
    (captureWindowValue c₁ months < captureWindowValue c₂ months ↔
      hotspotsWindowValue c₁ months < hotspotsWindowValue c₂ months) ∧
    (months.length = 1 → captureWindowValue c₁ months = hotspotsWindowValue c₁ months) := by
  have hlen : (0 : ℚ) < months.length := by
    have := List.length_pos.mpr h
    exact_mod_cast this
  refine ⟨rfl, ?_, ?_, ?_⟩
  · exact div_mul_cancel₀ _ (ne_of_gt hlen)
  · exact div_lt_div_iff_of_pos_right hlen
  · intro h1
    simp [captureWindowValue, hotspotsWindowValue, h1]

/-- Witness for the amended C3 at a one-month window. -/
theorem window_aggregation_sum_vs_mean_witness :
    (["2024-01"] ≠ ([] : List String)) ∧
      (captureWindowValue (fun _ => 5) ["2024-01"] <
          captureWindowValue (fun _ => 7) ["2024-01"] ↔
        hotspotsWindowValue (fun _ => 5) ["2024-01"] <
          hotspotsWindowValue (fun _ => 7) ["2024-01"]) :=
  ⟨by decide, (window_aggregation_sum_vs_mean _ _ _ (by decide)).2.2.1⟩

/-- **C4**: `init_db`'s cached build consults the cache at the
`(kind, latest month)` key: a hit is loaded verbatim with the join skipped
and the store unchanged; a miss computes the cube, performs the join once
and persists it under that key; a second build for the same key never joins
again; and a build for an advanced month uses a fresh key, leaving the old
key's artifact untouched. -/
theorem build_cube_cache_contract {α : Type} (store : List ((String × String) × α))
    (kind month : String) (compute : α) :
    (∀ c, store.lookup (kind, month) = some c →
        buildCubeCached store kind month compute = (c, store, false)) ∧
    (store.lookup (kind, month) = none →
        buildCubeCached store kind month compute =
          (compute, ((kind, month), compute) :: store, true)) ∧
    (buildCubeCached (buildCubeCached store kind month compute).2.1
        kind month compute).2.2 = false ∧
    (∀ (month₂ : String) (compute₂ : α), month₂ ≠ month →
        ((buildCubeCached store kind month₂ compute₂).2.1).lookup (kind, month) =
          store.lookup (kind, month)) := by
  refine ⟨?_, ?_, ?_, ?_⟩
  · intro c hc
    simp [buildCubeCached, hc]
  · intro hc
    simp [buildCubeCached, hc]
  · cases hc : store.lookup (kind, month) with
    | some c => simp [buildCubeCached, hc]
    | none => simp [buildCubeCached, hc, List.lookup]
  · intro m₂ c₂ hne
    cases hc : store.lookup (kind, m₂) with
    | some c => simp [buildCubeCached, hc]
    | none =>
      have hne' : month ≠ m₂ := fun h => hne h.symm
      have hb : (((kind, month) : String × String) == (kind, m₂)) = false := by
        show ((kind == kind) && (month == m₂)) = false
        simp [hne']
      simp [buildCubeCached, hc, List.lookup, hb]

/-- Witness for C4: an empty store misses, joins once and persists; the
immediately following build for the same key hits and does not join. -/
theorem build_cube_cache_contract_witness :
    buildCubeCached ([] : List ((String × String) × Nat)) "hex" "2025-02" 7 =
        (7, [(("hex", "2025-02"), 7)], true) ∧
      (buildCubeCached
          (buildCubeCached ([] : List ((String × String) × Nat)) "hex" "2025-02" 7).2.1
          "hex" "2025-02" 7).2.2 = false :=
  ⟨(build_cube_cache_contract [] "hex" "2025-02" 7).2.1 rfl,
    (build_cube_cache_contract [] "hex" "2025-02" 7).2.2.1⟩

/-- **C5** counterexample: the claim says a cache artifact that exists but
fails to deserialize is treated as a cache miss and the cube is rebuilt;
`init_db` only checks `cache_file.exists()` and its `read_parquet` call has
no handler, so a corrupt artifact is a hard failure, not a rebuild. -/
theorem cache_corrupt_not_treated_as_miss :
    loadOrBuildCounts (some (none : Option (List CountRow)))
        [⟨some 0, "2024-01", "x", 1⟩] = Except.error "CacheCorrupt" ∧
      ∀ c : List CountRow,
        loadOrBuildCounts (some (none : Option (List CountRow))) c ≠ Except.ok c :=
  ⟨rfl, fun c h => by simp [loadOrBuildCounts] at h⟩

/-- **C5** (amended): only a *missing* artifact triggers a rebuild; an
artifact that exists but fails to deserialize makes `init_db` fail hard
(the error propagates out of startup), and a readable artifact is loaded
verbatim. -/
theorem cache_read_behaviour {α : Type} (artifact : Option (Option α)) (compute : α) :
    (artifact = none → loadOrBuildCounts artifact compute = Except.ok compute) ∧
    (artifact = some none →
        loadOrBuildCounts artifact compute = Except.error "CacheCorrupt") ∧
    (∀ c, artifact = some (some c) →
        loadOrBuildCounts artifact compute = Except.ok c) :=
  ⟨fun h => by subst h; rfl, fun h => by subst h; rfl, fun c h => by subst h; rfl⟩

/-- Witness for the amended C5: a readable artifact is loaded verbatim. -/
theorem cache_read_behaviour_witness :
    loadOrBuildCounts (some (some (42 : Nat))) 7 = Except.ok 42 :=
  (cache_read_behaviour (some (some 42)) 7).2.2 42 rfl

/-- **C10**: for every geography other than `OA21` (`MSOA21`, `LSOA21`),
`census_counts` fails with the `ValueError` message and never returns
counts, although its parameter type admits those values. -/
theorem census_counts_only_oa21 (g : CensusGeography) (table : List OARow)
    (inForce : String → Bool) (cat : String) (h : g ≠ CensusGeography.OA21) :
    census_counts g table inForce cat =
        Except.error "only implemented for OA21. TODO: aggregate to L/MSOA21" ∧
      ∀ rows, census_counts g table inForce cat ≠ Except.ok rows := by
  have he : census_counts g table inForce cat =
      Except.error "only implemented for OA21. TODO: aggregate to L/MSOA21" := by
    unfold census_counts
    rw [if_pos h]
  exact ⟨he, fun rows hok => by rw [he] at hok; exact Except.noConfusion hok⟩

/-- Witness for C10 at `MSOA21`. -/
theorem census_counts_only_oa21_witness :
    census_counts CensusGeography.MSOA21 [] (fun _ => true) "x" =
      Except.error "only implemented for OA21. TODO: aggregate to L/MSOA21" :=
  (census_counts_only_oa21 CensusGeography.MSOA21 [] (fun _ => true) "x"
    (by decide)).1

/-! ### /hotspots parameter validation (app.py lines 174-182) -/

/-- Membership of `c` in the regex character range `lo-hi` (code points). -/
def charIn (lo hi c : Char) : Bool :=
  decide (lo.toNat ≤ c.toNat ∧ c.toNat ≤ hi.toNat)

/-- The month pattern `^\\d{4}-(0[1-9]|1[0-2])$` matched against a list of
characters. -/
def matchesMonthChars (l : List Char) : Bool :=
  match l with
  | [y₁, y₂, y₃, y₄, d, m₁, m₂] =>
      charIn '0' '9' y₁ && charIn '0' '9' y₂ && charIn '0' '9' y₃ &&
        charIn '0' '9' y₄ && (d == '-') &&
        ((m₁ == '0' && charIn '1' '9' m₂) || (m₁ == '1' && charIn '0' '2' m₂))
  | _ => false

/-- The FastAPI `Query(pattern=...)` validation of the `month` parameter. -/
def matchesMonthPattern (s : String) : Bool :=
  matchesMonthChars s.data

/-- The numeric month encoded by the two month digits. -/
def monthDigitsValue (m₁ m₂ : Char) : Nat :=
  10 * (m₁.toNat - ('0' : Char).toNat) + (m₂.toNat - ('0' : Char).toNat)

/-- Query parameters of `/hotspots`. -/
structure HotspotsParams where
  force : Option String
  category : String
  month : String
  lookback : Int
  n_hotspots : Int

/-- The declared FastAPI validation: `month` matches the pattern,
`lookback` has `ge=1, le=12` and `n_hotspots` has `ge=1`. -/
def validHotspotsParams (p : HotspotsParams) : Bool :=
  matchesMonthPattern p.month && decide (1 ≤ p.lookback) &&
    decide (p.lookback ≤ 12) && decide (1 ≤ p.n_hotspots)

/-- The `/hotspots` endpoint: FastAPI rejects invalid query parameters with
the 400 "Invalid input" response before the handler body (and hence any SQL
ranking) runs; valid requests run the national or force query.  The month
window is produced by the external `monthgen` collaborator, passed in as
`window`. -/
def hotspotsEndpoint (p : HotspotsParams) (window : String → Int → List String)
    (table : List CountRow) (inForce : String → Nat → Bool) :
    Except String (List (Nat × Nat)) :=
  if validHotspotsParams p then
    match p.force with
    | none =>
        Except.ok (hotspotsNationalResponse table p.category
          (window p.month p.lookback) p.n_hotspots.toNat)
    | some f =>
        Except.ok (forceHotspotsHex table (inForce f) p.category
          (window p.month p.lookback) p.n_hotspots.toNat)
  else
    Except.error "Invalid input"

theorem char_eq_of_toNat_eq {a b : Char} (h : a.toNat = b.toNat) : a = b :=
  Char.ext (UInt32.ext h)

/-- The month pattern accepts exactly the strings of shape `YYYY-MM` (four
digits, dash, two digits) whose month component lies in 01-12. -/
theorem matchesMonthChars_iff (l : List Char) :
    matchesMonthChars l = true ↔
      ∃ y₁ y₂ y₃ y₄ m₁ m₂ : Char,
        l = [y₁, y₂, y₃, y₄, '-', m₁, m₂] ∧
          (∀ c ∈ [y₁, y₂, y₃, y₄, m₁, m₂], charIn '0' '9' c = true) ∧
          1 ≤ monthDigitsValue m₁ m₂ ∧ monthDigitsValue m₁ m₂ ≤ 12 := by
  have h0 : ('0' : Char).toNat = 48 := rfl
  have h1 : ('1' : Char).toNat = 49 := rfl
  have h2 : ('2' : Char).toNat = 50 := rfl
  have h9 : ('9' : Char).toNat = 57 := rfl
  rcases l with _ | ⟨y₁, _ | ⟨y₂, _ | ⟨y₃, _ | ⟨y₄, _ | ⟨d, _ | ⟨m₁, _ | ⟨m₂, _ | ⟨e, t⟩⟩⟩⟩⟩⟩⟩⟩ <;>
    first
      | · constructor
          · intro h
            simp [matchesMonthChars] at h
          · rintro ⟨y₁', y₂', y₃', y₄', m₁', m₂', heq, -⟩
            simp at heq
      | skip
  constructor
  · intro h
    simp only [matchesMonthChars, Bool.and_eq_true, Bool.or_eq_true, beq_iff_eq,
      charIn, decide_eq_true_eq, h0, h1, h2, h9] at h
    obtain ⟨⟨⟨⟨⟨hy₁, hy₂⟩, hy₃⟩, hy₄⟩, hd⟩, hm⟩ := h
    subst hd
    refine ⟨y₁, y₂, y₃, y₄, m₁, m₂, rfl, ?_, ?_, ?_⟩
    · intro c hc
      simp only [List.mem_cons, List.not_mem_nil, or_false] at hc
      rcases hm with ⟨rfl, hm₂⟩ | ⟨rfl, hm₂⟩ <;>
        rcases hc with rfl | rfl | rfl | rfl | rfl | rfl <;>
        simp only [charIn, decide_eq_true_eq, h0, h1, h2, h9] <;> omega
    · rcases hm with ⟨rfl, hm₂⟩ | ⟨rfl, hm₂⟩ <;>
        simp only [monthDigitsValue, h0, h1] <;> omega
    · rcases hm with ⟨rfl, hm₂⟩ | ⟨rfl, hm₂⟩ <;>
        simp only [monthDigitsValue, h0, h1] <;> omega
  · rintro ⟨y₁', y₂', y₃', y₄', m₁', m₂', heq, hdig, hlo, hhi⟩
    simp only [List.cons.injEq, and_true] at heq
    obtain ⟨rfl, rfl, rfl, rfl, rfl, rfl, rfl⟩ := heq
    simp only [List.mem_cons, List.not_mem_nil, or_false, charIn,
      decide_eq_true_eq, h0, h9, forall_eq_or_imp, forall_eq] at hdig
    obtain ⟨hd₁, hd₂, hd₃, hd₄, hdm₁, hdm₂⟩ := hdig
    simp only [monthDigitsValue, h0] at hlo hhi
    simp only [matchesMonthChars, Bool.and_eq_true, Bool.or_eq_true, beq_iff_eq,
      charIn, decide_eq_true_eq, h0, h1, h2, h9]
    refine ⟨⟨⟨⟨⟨?_, ?_⟩, ?_⟩, ?_⟩, ?_⟩, ?_⟩
    · omega
    · omega
    · omega
    · omega
    · trivial
    · rcases (by omega : m₁.toNat = 48 ∨ m₁.toNat = 49) with hc | hc
      · exact Or.inl ⟨char_eq_of_toNat_eq (hc.trans h0.symm), by omega⟩
      · exact Or.inr ⟨char_eq_of_toNat_eq (hc.trans h1.symm), by omega⟩

/-- **C9**: the `/hotspots` interface validates its parameters before any
ranking: the month must be exactly `YYYY-MM` with month component 01-12,
`lookback` must lie in [1,12] and `n_hotspots` must be at least 1; any
request with `n_hotspots < 1` is rejected with the invalid-input error,
whatever the count table holds (so no ranking is performed). -/
theorem hotspots_params_validation (p : HotspotsParams)
    (window : String → Int → List String) (table : List CountRow)
    (inForce : String → Nat → Bool) :
    (matchesMonthPattern p.month = true ↔
      ∃ y₁ y₂ y₃ y₄ m₁ m₂ : Char,
        p.month.data = [y₁, y₂, y₃, y₄, '-', m₁, m₂] ∧
          (∀ c ∈ [y₁, y₂, y₃, y₄, m₁, m₂], charIn '0' '9' c = true) ∧
          1 ≤ monthDigitsValue m₁ m₂ ∧ monthDigitsValue m₁ m₂ ≤ 12) ∧
    (validHotspotsParams p = true ↔
      matchesMonthPattern p.month = true ∧ 1 ≤ p.lookback ∧ p.lookback ≤ 12 ∧
        1 ≤ p.n_hotspots) ∧
    (p.n_hotspots < 1 →
      hotspotsEndpoint p window table inForce = Except.error "Invalid input") := by
  have hB : validHotspotsParams p = true ↔
      matchesMonthPattern p.month = true ∧ 1 ≤ p.lookback ∧ p.lookback ≤ 12 ∧
        1 ≤ p.n_hotspots := by
    simp [validHotspotsParams, and_assoc]
  refine ⟨matchesMonthChars_iff p.month.data, hB, ?_⟩
  intro hn
  unfold hotspotsEndpoint
  rw [if_neg]
  intro hv
  have := (hB.mp hv).2.2.2
  omega

/-- Witness for C9: a request with `n_hotspots = 0` is rejected. -/
theorem hotspots_params_validation_witness :
    ((0 : Int) < 1) ∧
      hotspotsEndpoint ⟨none, "x", "2024-03", 1, 0⟩ (fun _ _ => []) []
          (fun _ _ => true) = Except.error "Invalid input" :=
  ⟨by decide,
    (hotspots_params_validation ⟨none, "x", "2024-03", 1, 0⟩ (fun _ _ => []) []
      (fun _ _ => true)).2.2 (by decide)⟩

/-! ### AGGREGATE_TO_HEX and the partition invariant (sql.py lines 1-14) -/

/-- An ingested incident: month, crime type and an (already reprojected)
point location of abstract type `P`. -/
structure Incident (P : Type) where
  month : String
  crime_type : String
  pt : P
deriving DecidableEq, Repr

/-- `AGGREGATE_TO_HEX`: `COUNT` over the rows of the `ST_Intersects` join,
grouped by `(spatial_unit, month, crime_type)` — the count of a unit for
`(m, c)` is the number of `(m, c)` incidents whose point intersects the
unit's geometry.  (The `RIGHT JOIN` also groups unmatched incidents under a
NULL unit, which contributes to no unit's count.) -/
def aggCount {P : Type} (intersects : Nat → P → Bool)
    (incidents : List (Incident P)) (u : Nat) (m c : String) : Nat :=
  (incidents.filter (fun i =>
    decide (i.month = m ∧ i.crime_type = c) && intersects u i.pt)).length

/-- The number of `(m, c)` incidents falling within catalog coverage (their
point intersects at least one unit). -/
def coveredCount {P : Type} (units : List Nat) (intersects : Nat → P → Bool)
    (incidents : List (Incident P)) (m c : String) : Nat :=
  (incidents.filter (fun i =>
    decide (i.month = m ∧ i.crime_type = c) &&
      units.any (fun u => intersects u i.pt))).length

theorem sum_map_add {α : Type} (l : List α) (f g : α → Nat) :
    (l.map (fun a => f a + g a)).sum = (l.map f).sum + (l.map g).sum := by
  induction l with
  | nil => rfl
  | cons x xs ih => simp [ih]; omega

theorem sum_map_ite_one {α : Type} (l : List α) (q : α → Bool) :
    (l.map (fun a => if q a then 1 else 0)).sum = (l.filter q).length := by
  induction l with
  | nil => rfl
  | cons x xs ih => cases hq : q x <;> simp [List.filter_cons, hq, ih] <;> omega

theorem filter_length_le_one {l : List Nat} {q : Nat → Bool} (hnd : l.Nodup)
    (huniq : ∀ a b, a ∈ l → b ∈ l → q a = true → q b = true → a = b) :
    (l.filter q).length ≤ 1 := by
  induction l with
  | nil => simp
  | cons x xs ih =>
    rcases List.nodup_cons.mp hnd with ⟨hx, hnd₂⟩
    cases hq : q x with
    | false =>
      simpa [List.filter_cons, hq] using
        ih hnd₂ (fun a b ha hb => huniq a b (List.mem_cons_of_mem _ ha)
          (List.mem_cons_of_mem _ hb))
    | true =>
      have hempty : xs.filter q = [] := by
        rw [List.filter_eq_nil]
        intro b hb hqb
        have hxb : x = b :=
          huniq x b (List.mem_cons_self _ _) (List.mem_cons_of_mem _ hb) hq hqb
        exact hx (hxb ▸ hb)
      simp [List.filter_cons, hq, hempty]

theorem filter_length_eq_one {l : List Nat} {q : Nat → Bool} (hnd : l.Nodup)
    (huniq : ∀ a b, a ∈ l → b ∈ l → q a = true → q b = true → a = b)
    {a : Nat} (ha : a ∈ l) (hqa : q a = true) : (l.filter q).length = 1 := by
  have hle := filter_length_le_one hnd huniq
  have hmem : a ∈ l.filter q := List.mem_filter.mpr ⟨ha, hqa⟩
  have hpos := List.length_pos_of_mem hmem
  omega

/-- **C6**: for a partitioning catalog (each point intersects at most one
unit) with duplicate-free unit ids, (a) every incident increments at most
one unit's count, (b) the per-`(m, c)` counts summed over all units equal
the number of `(m, c)` incidents within catalog coverage, and (c) an
incident outside every unit contributes to no unit's count (and the
aggregation is total — no error is raised for it). -/
theorem hex_aggregation_partition_invariant {P : Type} (units : List Nat)
    (intersects : Nat → P → Bool) (incidents : List (Incident P)) (m c : String)
    (hpart : ∀ (p : P) (u v : Nat), u ∈ units → v ∈ units →
        intersects u p = true → intersects v p = true → u = v)
    (hnodup : units.Nodup) :
    (∀ i : Incident P, (units.filter (fun u => intersects u i.pt)).length ≤ 1) ∧
    ((units.map (fun u => aggCount intersects incidents u m c)).sum =
        coveredCount units intersects incidents m c) ∧
    (∀ (i : Incident P) (rest : List (Incident P)),
        units.all (fun u => !intersects u i.pt) = true →
        ∀ u ∈ units, aggCount intersects (i :: rest) u m c =
          aggCount intersects rest u m c) := by
  refine ⟨?_, ?_, ?_⟩
  · intro i
    exact filter_length_le_one hnodup (fun a b ha hb hqa hqb => hpart i.pt a b ha hb hqa hqb)
  · induction incidents with
    | nil =>
      simp only [coveredCount, List.filter_nil, List.length_nil]
      exact List.sum_eq_zero (by simp [aggCount])
    | cons i rest ih =>
      have hsplit : ∀ u, aggCount intersects (i :: rest) u m c =
          (if decide (i.month = m ∧ i.crime_type = c) && intersects u i.pt
            then 1 else 0) + aggCount intersects rest u m c := by
        intro u
        simp only [aggCount, List.filter_cons]
        cases hp : (decide (i.month = m ∧ i.crime_type = c) && intersects u i.pt) <;>
          simp [hp] <;> omega
      have hcov : coveredCount units intersects (i :: rest) m c =
          (if decide (i.month = m ∧ i.crime_type = c) &&
              units.any (fun u => intersects u i.pt) then 1 else 0) +
            coveredCount units intersects rest m c := by
        simp only [coveredCount, List.filter_cons]
        cases hp : (decide (i.month = m ∧ i.crime_type = c) &&
            units.any (fun u => intersects u i.pt)) <;> simp [hp] <;> omega
      calc (units.map (fun u => aggCount intersects (i :: rest) u m c)).sum
          = (units.map (fun u =>
              (if decide (i.month = m ∧ i.crime_type = c) && intersects u i.pt
                then 1 else 0) + aggCount intersects rest u m c)).sum := by
            simp only [hsplit]
        _ = (units.map (fun u =>
              if decide (i.month = m ∧ i.crime_type = c) && intersects u i.pt
                then 1 else 0)).sum +
            (units.map (fun u => aggCount intersects rest u m c)).sum :=
            sum_map_add _ _ _
        _ = (units.filter (fun u =>
              decide (i.month = m ∧ i.crime_type = c) && intersects u i.pt)).length +
            coveredCount units intersects rest m c := by
            rw [sum_map_ite_one, ih]
        _ = (if decide (i.month = m ∧ i.crime_type = c) &&
              units.any (fun u => intersects u i.pt) then 1 else 0) +
            coveredCount units intersects rest m c := by
            congr 1
            cases hmc : decide (i.month = m ∧ i.crime_type = c) with
            | false => simp
            | true =>
              simp only [Bool.true_and]
              cases hany : units.any (fun u => intersects u i.pt) with
              | false =>
                have hnone := List.any_eq_false.mp hany
                have : units.filter (fun u => intersects u i.pt) = [] :=
                  List.filter_eq_nil.mpr hnone
                simp [this]
              | true =>
                obtain ⟨u₀, hu₀, hq₀⟩ := List.any_eq_true.mp hany
                simp only [if_true]
                exact filter_length_eq_one hnodup
                  (fun a b ha hb hqa hqb => hpart i.pt a b ha hb hqa hqb) hu₀ hq₀
        _ = coveredCount units intersects (i :: rest) m c := hcov.symm
  · intro i rest hall u hu
    have hfalse : intersects u i.pt = false := by
      have := List.all_eq_true.mp hall u hu
      simpa using this
    simp [aggCount, List.filter_cons, hfalse]

/-- Witness for C6: two unit ids, the partition `intersects u p ↔ p = u`,
three incidents of which one (point 5) lies outside both units. -/
theorem hex_aggregation_partition_invariant_witness :
    ([0, 1] : List Nat).Nodup ∧
      (([0, 1] : List Nat).map (fun u =>
          aggCount (fun u p => decide (p = u))
            [⟨"2024-01", "x", 0⟩, ⟨"2024-01", "x", 1⟩, ⟨"2024-01", "x", 5⟩]
            u "2024-01" "x")).sum =
        coveredCount [0, 1] (fun u p => decide (p = u))
          [⟨"2024-01", "x", 0⟩, ⟨"2024-01", "x", 1⟩, ⟨"2024-01", "x", 5⟩]
          "2024-01" "x" ∧
      coveredCount [0, 1] (fun u p => decide (p = u))
          [⟨"2024-01", "x", 0⟩, ⟨"2024-01", "x", 1⟩, ⟨"2024-01", "x", 5⟩]
          "2024-01" "x" = 2 :=
  ⟨by decide,
    (hex_aggregation_partition_invariant [0, 1] (fun u p => decide (p = u))
        [⟨"2024-01", "x", 0⟩, ⟨"2024-01", "x", 1⟩, ⟨"2024-01", "x", 5⟩]
        "2024-01" "x"
        (fun p u v _ _ h₁ h₂ => by
          simp only [decide_eq_true_eq] at h₁ h₂
          omega)
        (by decide)).2.1,
    by decide⟩

/-! ### Rolling windows (Hotspots.py line 134:
`.rolling(window).step_by(update)`) -/

/-- Modelled from the spec: `rolling(window)` of the `itrx` iterator library
(a dependency used by Hotspots.py, not part of this repository) — consecutive
sub-windows of size `window` advancing by one element, stopping once fewer
than `window` elements remain. -/
def rolling {α : Type} (w : Nat) : List α → List (List α)
  | [] => []
  | x :: xs => if xs.length + 1 < w then [] else (x :: xs).take w :: rolling w xs

/-- Modelled from the spec: `step_by(step)` of the `itrx` iterator library —
keeps every `step`-th element starting with the first; `k` counts down to
the next kept element. -/
def stepEveryFrom {α : Type} (s : Nat) : Nat → List α → List α
  | _, [] => []
  | 0, x :: xs => x :: stepEveryFrom s (s - 1) xs
  | k + 1, _ :: xs => stepEveryFrom s k xs

/-- `step_by(step)` applied from the first element. -/
def stepEvery {α : Type} (s : Nat) (l : List α) : List α := stepEveryFrom s 0 l

/-- `rolling_windows(months, window, step)`:
`timeline.rolling(window).step_by(update)` as composed in Hotspots.py. -/
def rollingWindows {α : Type} (xs : List α) (w s : Nat) : List (List α) :=
  stepEvery s (rolling w xs)

theorem rolling_getq {α : Type} (w : Nat) (hw : 1 ≤ w) (xs : List α) (i : Nat) :
    (rolling w xs).get? i =
      if i + w ≤ xs.length then some ((xs.drop i).take w) else none := by
  induction xs generalizing i with
  | nil =>
    rw [if_neg (by simp; omega)]
    cases i <;> rfl
  | cons x xs ih =>
    by_cases h : xs.length + 1 < w
    · have hr : rolling w (x :: xs) = [] := by simp [rolling, h]
      rw [hr, if_neg (by simp only [List.length_cons]; omega)]
      cases i <;> rfl
    · have hr : rolling w (x :: xs) = (x :: xs).take w :: rolling w xs := by
        simp [rolling, h]
      rw [hr]
      cases i with
      | zero =>
        rw [if_pos (by simp only [List.length_cons]; omega)]
        rfl
      | succ i =>
        rw [List.get?_cons_succ, ih]
        by_cases hc : i + w ≤ xs.length
        · rw [if_pos hc, if_pos (by simp only [List.length_cons]; omega)]
          rfl
        · rw [if_neg hc, if_neg (by simp only [List.length_cons]; omega)]

theorem stepEveryFrom_getq {α : Type} (s : Nat) (hs : 1 ≤ s) (l : List α) :
    ∀ (k i : Nat), (stepEveryFrom s k l).get? i = l.get? (k + i * s) := by
  induction l with
  | nil => intro k i; cases k <;> cases i <;> rfl
  | cons x xs ih =>
    intro k i
    cases k with
    | zero =>
      cases i with
      | zero =>
        rw [show stepEveryFrom s 0 (x :: xs) = x :: stepEveryFrom s (s - 1) xs
            from rfl]
        simp
      | succ i =>
        have hidx : 0 + (i + 1) * s = (s - 1 + i * s) + 1 := by
          rw [Nat.succ_mul]; omega
        rw [show stepEveryFrom s 0 (x :: xs) = x :: stepEveryFrom s (s - 1) xs
            from rfl,
          List.get?_cons_succ, ih (s - 1) i, hidx, List.get?_cons_succ]
    | succ k =>
      rw [show stepEveryFrom s (k + 1) (x :: xs) = stepEveryFrom s k xs from rfl,
        ih k i, show k + 1 + i * s = (k + i * s) + 1 from by omega,
        List.get?_cons_succ]

/-- **C7**: `rolling_windows` over an ordered month sequence yields the
sub-windows of exactly `w` consecutive elements starting at indices
`0, s, 2s, ...`, stopping once fewer than `w` elements remain: the `i`-th
produced window is `(xs.drop (i*s)).take w` and exists exactly when
`i*s + w ≤ xs.length`.  A 12-element sequence with `w = 3, s = 1` yields
exactly the 10 windows `[m1,m2,m3] .. [m10,m11,m12]`, and `w` greater than
the sequence length yields the empty sequence (the function is total — no
error). -/
theorem rolling_windows_spec {α : Type} (xs : List α) (w s : Nat)
    (hw : 1 ≤ w) (hs : 1 ≤ s) :
    (∀ i : Nat, (rollingWindows xs w s).get? i =
        if i * s + w ≤ xs.length then some ((xs.drop (i * s)).take w) else none) ∧
    (∀ win ∈ rollingWindows xs w s, win.length = w) ∧
    (xs.length < w → rollingWindows xs w s = []) ∧
    rollingWindows (List.range 12) 3 1 =
      [[0, 1, 2], [1, 2, 3], [2, 3, 4], [3, 4, 5], [4, 5, 6], [5, 6, 7],
        [6, 7, 8], [7, 8, 9], [8, 9, 10], [9, 10, 11]] := by
  have hget : ∀ i : Nat, (rollingWindows xs w s).get? i =
      if i * s + w ≤ xs.length then some ((xs.drop (i * s)).take w) else none := by
    intro i
    rw [rollingWindows, stepEvery, stepEveryFrom_getq s hs _ 0 i, Nat.zero_add,
      rolling_getq w hw xs (i * s)]
  refine ⟨hget, ?_, ?_, by decide⟩
  · intro win hwin
    obtain ⟨i, hi⟩ := List.get?_of_mem hwin
    rw [hget i] at hi
    by_cases hc : i * s + w ≤ xs.length
    · rw [if_pos hc] at hi
      obtain rfl := (Option.some.inj hi).symm
      simp only [List.length_take, List.length_drop]
      omega
    · rw [if_neg hc] at hi
      exact absurd hi (by simp)
  · intro hlt
    have h0 := hget 0
    rw [if_neg (by omega)] at h0
    have hlen : (rollingWindows xs w s).length ≤ 0 := List.get?_eq_none.mp h0
    exact List.eq_nil_of_length_eq_zero (by omega)

/-- Witness for C7 at the spec's 12-month, window-3, step-1 scenario. -/
theorem rolling_windows_spec_witness :
    (1 ≤ 3 ∧ 1 ≤ 1) ∧
      rollingWindows (List.range 12) 3 1 =
        [[0, 1, 2], [1, 2, 3], [2, 3, 4], [3, 4, 5], [4, 5, 6], [5, 6, 7],
          [6, 7, 8], [7, 8, 9], [8, 9, 10], [9, 10, 11]] :=
  ⟨by decide,
    (rolling_windows_spec (List.range 12) 3 1 (by decide) (by decide)).2.2.2⟩

end SaferStreets
